import Mathlib

/-!
Verification of the secret-scoring transformer engine (python-llm).

The Python source (src/model.py, src/attention.py, src/service.py) is
shallowly embedded over exact rationals.  Floating-point numbers become
rationals; the transcendental functions used by the code (exp, log, log2,
sqrt) become explicit function parameters of the embedded operations, so
every definition stays computable.  Fallible operations (KeyError,
ZeroDivisionError) are made explicit in the result types.
-/

set_option maxHeartbeats 1000000

abbrev VecQ := List ℚ
abbrev MatQ := List (List ℚ)

/-- Dot product of two rational vectors (componentwise over the common
length, matching well-formed numpy inputs). -/
def dotQ (a b : VecQ) : ℚ := (List.zipWith (· * ·) a b).sum

/-- Column j of a row-major matrix. -/
def colQ (m : MatQ) (j : Nat) : VecQ := m.map (fun r => r.getD j 0)

/-- Number of columns of a row-major matrix, read off the first row. -/
def numColsQ (m : MatQ) : Nat := (m.headD []).length

/-- Row-vector times matrix: the embedding of numpy matmul of a
[1 x n] row with an [n x k] matrix, yielding a length-k vector. -/
def rowMatMulQ (r : VecQ) (m : MatQ) : VecQ :=
  (List.range (numColsQ m)).map (fun j => dotQ r (colQ m j))

/-- Elementwise vector addition (numpy + on equal-shaped arrays). -/
def addVecQ (a b : VecQ) : VecQ := List.zipWith (· + ·) a b

/-- Elementwise vector multiplication (numpy * on equal-shaped arrays). -/
def mulVecQ (a b : VecQ) : VecQ := List.zipWith (· * ·) a b

/-- Matrix product of row-major matrices (numpy matmul). -/
def matMulQ (a b : MatQ) : MatQ := a.map (fun r => rowMatMulQ r b)

/-- Elementwise matrix addition. -/
def addMatQ (a b : MatQ) : MatQ := List.zipWith addVecQ a b

/-- Maximum entry of a list (numpy max; 0 on the empty list, which numpy
rejects — all uses are on non-empty lists). -/
def listMaxQ (l : VecQ) : ℚ := l.foldl max (l.headD 0)

/-- First index attaining the maximum, the embedding of numpy argmax.
Auxiliary: best value, best index, current index. -/
def argmaxAux : List ℚ → ℚ → Nat → Nat → Nat
  | [], _, best, _ => best
  | x :: xs, bv, best, i =>
      if bv < x then argmaxAux xs x i (i + 1) else argmaxAux xs bv best (i + 1)

/-- numpy argmax over a rational list (0 on the empty list). -/
def argmaxQ : List ℚ → Nat
  | [] => 0
  | x :: xs => argmaxAux xs x 0 1

/-- Softmax with max-subtraction, the embedding of CustomLLM._softmax and
CustomAttention._softmax (per row); expQ stands for real exp. -/
def softmaxQ (expQ : ℚ → ℚ) (x : VecQ) : VecQ :=
  let xmax := listMaxQ x
  let ex := x.map (fun v => expQ (v - xmax))
  ex.map (fun v => v / ex.sum)

/-- ModelConfig from src/model.py. -/
structure ModelConfig where
  vocab_size : Nat
  hidden_dim : Nat
  num_layers : Nat
  num_heads : Nat
  max_seq_len : Nat
  num_classes : Nat
  dropout : ℚ
deriving DecidableEq, Repr

/-- The default configuration built by ModelConfig.__init__. -/
def defaultConfig : ModelConfig :=
  { vocab_size := 1000, hidden_dim := 128, num_layers := 2, num_heads := 4
    max_seq_len := 50, num_classes := 4, dropout := 1 / 10 }

/-- Weights of CustomAttention (src/attention.py). -/
structure AttentionWeights where
  w_q : MatQ
  w_k : MatQ
  w_v : MatQ
  w_o : MatQ
  embed_dim : Nat
  num_heads : Nat
  head_dim : Nat
deriving DecidableEq, Repr

/-- Weights of FeedForwardNetwork (src/model.py). -/
structure FFNWeights where
  w1 : MatQ
  b1 : VecQ
  w2 : MatQ
  b2 : VecQ
  ln_weight : VecQ
  ln_bias : VecQ
  hidden_dim : Nat
  ff_dim : Nat
deriving DecidableEq, Repr

/-- A TransformerBlock's weights (src/model.py). -/
structure BlockWeights where
  attention : AttentionWeights
  ffn : FFNWeights
deriving DecidableEq, Repr

/-- A buffered training sample ('secret_value', 'features', 'label'). -/
structure SampleQ where
  secret_value : String
  features : VecQ
  label : String
deriving DecidableEq, Repr

/-- The mutable state of a CustomLLM instance (src/model.py). -/
structure Model where
  config : ModelConfig
  token_embedding : MatQ
  feature_embedding : MatQ
  pos_encoding : MatQ
  layers : List BlockWeights
  classifier : MatQ
  classifier_bias : VecQ
  is_trained : Bool
  learning_rate : ℚ
  training_samples : List SampleQ
  confidence_calibration : List (String × VecQ)
  calibration_samples : List (ℚ × String)
deriving DecidableEq, Repr

/-- CustomLLM._tokenize_secret: character codes of the first max_seq_len
characters, with codes at or above vocab_size mapped to 0. -/
def tokenize_secret (cfg : ModelConfig) (s : String) : List Nat :=
  (s.toList.take cfg.max_seq_len).map
    (fun ch => if ch.toNat < cfg.vocab_size then ch.toNat else 0)

/-- One attention head slice of the columns [h*head_dim, (h+1)*head_dim). -/
def headSliceQ (head_dim h : Nat) (m : MatQ) : MatQ :=
  m.map (fun r => (r.drop (h * head_dim)).take head_dim)

/-- CustomAttention.forward on a single-batch input (mask = None, as in
CustomLLM.forward): project q/k/v, per head compute softmaxed scaled
dot-product scores times values, concatenate heads, project by w_o. -/
def attention_forward (expQ sqrtQ : ℚ → ℚ) (aw : AttentionWeights)
    (x : MatQ) : MatQ :=
  let q := matMulQ x aw.w_q
  let k := matMulQ x aw.w_k
  let v := matMulQ x aw.w_v
  let heads := (List.range aw.num_heads).map (fun h =>
    let qh := headSliceQ aw.head_dim h q
    let kh := headSliceQ aw.head_dim h k
    let vh := headSliceQ aw.head_dim h v
    let scores := qh.map (fun qr => kh.map (fun kr =>
      dotQ qr kr / sqrtQ (aw.head_dim : ℚ)))
    let weights := scores.map (softmaxQ expQ)
    matMulQ weights vh)
  let context := (List.range x.length).map
    (fun i => (heads.map (fun hm => hm.getD i [])).flatten)
  matMulQ context aw.w_o

/-- FeedForwardNetwork.forward: layer norm with population variance and
epsilon 1e-6 plus learned scale/bias, then Linear, ReLU, Linear (per row). -/
def ffn_forward (sqrtQ : ℚ → ℚ) (fw : FFNWeights) (x : MatQ) : MatQ :=
  x.map (fun row =>
    let mean := row.sum / (row.length : ℚ)
    let var := (row.map (fun a => (a - mean) ^ 2)).sum / (row.length : ℚ)
    let xn := row.map (fun a => (a - mean) / sqrtQ (var + 1 / 1000000))
    let xs := addVecQ (mulVecQ xn fw.ln_weight) fw.ln_bias
    let h := (addVecQ (rowMatMulQ xs fw.w1) fw.b1).map (fun a => max 0 a)
    addVecQ (rowMatMulQ h fw.w2) fw.b2)

/-- TransformerBlock.forward: attention plus residual, then feed-forward
plus residual. -/
def block_forward (expQ sqrtQ : ℚ → ℚ) (bw : BlockWeights) (x : MatQ) : MatQ :=
  let x1 := addMatQ x (attention_forward expQ sqrtQ bw.attention x)
  addMatQ x1 (ffn_forward sqrtQ bw.ffn x1)

/-- Token embeddings + tiled feature embedding + positional encoding,
the combination step of CustomLLM.forward before the transformer stack. -/
def embed_input (m : Model) (s : String) (features : VecQ) : MatQ :=
  let tokens := tokenize_secret m.config s
  let token_embeds := tokens.map (fun t => m.token_embedding.getD t [])
  let feature_embeds := rowMatMulQ features m.feature_embedding
  List.zipWith (fun te pe => addVecQ (addVecQ te feature_embeds) pe)
    token_embeds (m.pos_encoding.take tokens.length)

/-- The transformer stack applied to the embedded input. -/
def backboneQ (expQ sqrtQ : ℚ → ℚ) (m : Model) (s : String)
    (features : VecQ) : MatQ :=
  m.layers.foldl (fun acc bw => block_forward expQ sqrtQ bw acc)
    (embed_input m s features)

/-- Global average pooling over sequence positions (numpy mean, axis 1). -/
def meanPoolQ (rows : MatQ) : VecQ :=
  (match rows with
   | [] => []
   | r :: rs => rs.foldl addVecQ r).map (fun a => a / (rows.length : ℚ))

/-- Classifier logits of CustomLLM.forward. -/
def logitsQ (expQ sqrtQ : ℚ → ℚ) (m : Model) (s : String)
    (features : VecQ) : VecQ :=
  addVecQ (rowMatMulQ (meanPoolQ (backboneQ expQ sqrtQ m s features))
    m.classifier) m.classifier_bias

/-- The probability vector computed by CustomLLM.forward on a non-empty
token sequence. -/
def probsQ (expQ sqrtQ : ℚ → ℚ) (m : Model) (s : String)
    (features : VecQ) : VecQ :=
  softmaxQ expQ (logitsQ expQ sqrtQ m s features)

/-- The fixed label order of CustomLLM.forward. -/
def labelsQ : List String := ["high", "medium", "low", "false_positive"]

/-- Result dictionary of CustomLLM.forward; probabilities is absent
(none) exactly on the empty-token fallback. -/
structure ForwardResult where
  prediction : String
  confidence : ℚ
  probabilities : Option VecQ
deriving DecidableEq, Repr

/-- CustomLLM.forward: tokenize; on an empty token sequence return the
low/0.0 fallback without probabilities; otherwise embed, run the
transformer stack, pool, classify, softmax, and report argmax. -/
def forward (expQ sqrtQ : ℚ → ℚ) (m : Model) (s : String)
    (features : VecQ) : ForwardResult :=
  let tokens := tokenize_secret m.config s
  if tokens.length = 0 then
    { prediction := "low", confidence := 0, probabilities := none }
  else
    let probs := probsQ expQ sqrtQ m s features
    let pred_idx := argmaxQ probs
    { prediction := labelsQ.getD pred_idx ""
      confidence := probs.getD pred_idx 0
      probabilities := some probs }

/-- The Python exceptions that can escape the training path. -/
inductive PyError where
  | keyError
  | zeroDivision
deriving DecidableEq, Repr

/-- label_map.get(target_label, 2): high 0, medium 1, low 2,
false_positive 3, anything else defaults to low (2). -/
def labelIndexQ (lbl : String) : Nat :=
  if lbl = "high" then 0
  else if lbl = "medium" then 1
  else if lbl = "low" then 2
  else if lbl = "false_positive" then 3
  else 2

/-- CustomLLM._simple_gradient_update: if the token sequence is empty do
nothing; if the argmax differs from the target, shift the classifier bias
and every classifier row by learning_rate * 0.1 toward the target column
and away from the predicted column (the numpy grad assigns column target
first, then column predicted, so the predicted assignment wins on
overlap). -/
def simple_gradient_update (m : Model) (s : String) (target_idx : Nat)
    (probs : VecQ) : Model :=
  let tokens := tokenize_secret m.config s
  if tokens = [] then m
  else
    let pred_idx := argmaxQ probs
    if pred_idx ≠ target_idx then
      let update_factor := m.learning_rate * (1 / 10)
      let b1 := m.classifier_bias.set target_idx
        (m.classifier_bias.getD target_idx 0 + update_factor)
      let b2 := b1.set pred_idx (b1.getD pred_idx 0 - update_factor)
      let cls := m.classifier.map (fun row =>
        row.mapIdx (fun j x => x +
          (if j = pred_idx then -update_factor
           else if j = target_idx then update_factor else 0)))
      { m with classifier_bias := b2, classifier := cls }
    else m

/-- CustomLLM.train_step: map the label, run forward, read the
probabilities entry (KeyError when the empty-input fallback omitted it),
compute the cross-entropy loss, and apply the simplified update.  Returns
the post-call state together with the loss or the escaped exception. -/
def train_step (expQ sqrtQ logQ : ℚ → ℚ) (m : Model) (s : String)
    (features : VecQ) (target_label : String) : Model × Except PyError ℚ :=
  let target_idx := labelIndexQ target_label
  match (forward expQ sqrtQ m s features).probabilities with
  | none => (m, Except.error PyError.keyError)
  | some probs =>
      let loss := -(logQ (probs.getD target_idx 0 + 1 / 100000000))
      (simple_gradient_update m s target_idx probs, Except.ok loss)

/-- Iterate one epoch of CustomLLM.train over the sample list: samples
whose feature vector length is not 19 are skipped; a train_step exception
aborts with the state reached so far.  Returns state and epoch loss. -/
def run_epoch_samples (expQ sqrtQ logQ : ℚ → ℚ) :
    List SampleQ → Model → ℚ → (Model × ℚ) ⊕ (Model × PyError)
  | [], m, acc => Sum.inl (m, acc)
  | sample :: rest, m, acc =>
      if sample.features.length ≠ 19 then
        run_epoch_samples expQ sqrtQ logQ rest m acc
      else
        match train_step expQ sqrtQ logQ m sample.secret_value
          sample.features sample.label with
        | (m1, Except.ok loss) =>
            run_epoch_samples expQ sqrtQ logQ rest m1 (acc + loss)
        | (m1, Except.error e) => Sum.inr (m1, e)

/-- The epoch loop of CustomLLM.train: each epoch accumulates
epoch_loss / max(1, num_samples) into the running total. -/
def run_epochs (expQ sqrtQ logQ : ℚ → ℚ) (samples : List SampleQ)
    (num_samples : Nat) : Nat → Model → ℚ → (Model × ℚ) ⊕ (Model × PyError)
  | 0, m, total => Sum.inl (m, total)
  | n + 1, m, total =>
      match run_epoch_samples expQ sqrtQ logQ samples m 0 with
      | Sum.inl (m1, epoch_loss) =>
          run_epochs expQ sqrtQ logQ samples num_samples n m1
            (total + epoch_loss / (max 1 num_samples : ℚ))
      | Sum.inr r => Sum.inr r

/-- The value CustomLLM.train produces: the structured error dictionary,
the statistics dictionary, or an escaped exception. -/
inductive TrainResult where
  | errorResult (msg : String)
  | stats (epochs_trained : Nat) (average_loss : ℚ) (samples_processed : Nat)
      (model_updated : Bool)
  | exn (e : PyError)
deriving DecidableEq, Repr

/-- CustomLLM.train: the empty sample list returns the structured error;
otherwise run the epochs, set is_trained, and divide the accumulated loss
by the epoch count (a ZeroDivisionError when epochs = 0, raised after
is_trained was already set). -/
def train (expQ sqrtQ logQ : ℚ → ℚ) (m : Model) (samples : List SampleQ)
    (epochs : Nat) : Model × TrainResult :=
  if samples = [] then (m, TrainResult.errorResult "No training samples provided")
  else
    match run_epochs expQ sqrtQ logQ samples samples.length epochs m 0 with
    | Sum.inr (m1, e) => (m1, TrainResult.exn e)
    | Sum.inl (m1, total_loss) =>
        let m2 := { m1 with is_trained := true }
        if epochs = 0 then (m2, TrainResult.exn PyError.zeroDivision)
        else (m2, TrainResult.stats epochs (total_loss / (epochs : ℚ))
          samples.length true)

/-- First-match association lookup, the embedding of Python dict access
(dicts here never hold duplicate keys, so first match is the match). -/
def lookupQ {α : Type} : List (String × α) → String → Option α
  | [], _ => none
  | (k, v) :: rest, key => if k = key then some v else lookupQ rest key

/-- In-place update of an existing key's value in an association list. -/
def setAssocQ {α : Type} : List (String × α) → String → α → List (String × α)
  | [], _, _ => []
  | (k, v) :: rest, key, nv =>
      if k = key then (k, nv) :: rest else (k, v) :: setAssocQ rest key nv

/-- CustomLLM.calibrate_confidence: record the sample, append the
predicted confidence to the label's history (creating the key first when
absent, as the Python dict does), and once that history holds more than 5
entries return clamp(0.7 * predicted + 0.3 * mean(history), 0, 1), else
the predicted confidence unchanged. -/
def calibrate_confidence (m : Model) (predicted_confidence : ℚ)
    (true_label : String) : ℚ × Model :=
  let cal0 := match lookupQ m.confidence_calibration true_label with
    | none => m.confidence_calibration ++ [(true_label, [])]
    | some _ => m.confidence_calibration
  let hist := (lookupQ cal0 true_label).getD [] ++ [predicted_confidence]
  let cal1 := setAssocQ cal0 true_label hist
  let m1 := { m with
    confidence_calibration := cal1
    calibration_samples :=
      m.calibration_samples ++ [(predicted_confidence, true_label)] }
  if 5 < hist.length then
    let historical_mean := hist.sum / (hist.length : ℚ)
    let calibrated := predicted_confidence * (7 / 10) + historical_mean * (3 / 10)
    (min 1 (max 0 calibrated), m1)
  else (predicted_confidence, m1)

/-- Per-version performance counters of LLMAnalyzer (created_at is only
present on entries made by create_model_version). -/
structure VersionPerf where
  total_predictions : Nat
  correct_predictions : Nat
  accuracy : ℚ
  created_at : Option String
deriving DecidableEq, Repr

/-- The versioning / A-B state of an LLMAnalyzer instance
(src/service.py). -/
structure AnalyzerState where
  config : ModelConfig
  model : Model
  model_versions : List (String × Model)
  active_version : String
  ab_testing_enabled : Bool
  ab_group_a : String
  ab_group_b : String
  version_performance : List (String × VersionPerf)
deriving DecidableEq, Repr

/-- The snapshot model built by LLMAnalyzer.create_model_version: a fresh
CustomLLM whose five weight arrays are overwritten with copies of the
current model's and whose layer list is the (shallow-copied) current
layer list; all other fields keep their CustomLLM.__init__ defaults. -/
def snapshotModel (cfg : ModelConfig) (src : Model) : Model :=
  { config := cfg
    token_embedding := src.token_embedding
    feature_embedding := src.feature_embedding
    pos_encoding := src.pos_encoding
    layers := src.layers
    classifier := src.classifier
    classifier_bias := src.classifier_bias
    is_trained := false
    learning_rate := 1 / 1000
    training_samples := []
    confidence_calibration := []
    calibration_samples := [] }

/-- LLMAnalyzer.create_model_version: fail (False) without any change
when the name exists; otherwise store the snapshot and fresh performance
counters under the name. -/
def create_model_version (st : AnalyzerState) (version_name : String) :
    Bool × AnalyzerState :=
  match lookupQ st.model_versions version_name with
  | some _ => (false, st)
  | none =>
      (true, { st with
        model_versions :=
          st.model_versions ++ [(version_name, snapshotModel st.config st.model)]
        version_performance := st.version_performance ++
          [(version_name,
            { total_predictions := 0, correct_predictions := 0
              accuracy := 0, created_at := some "now" })] })

/-- The (total_predictions, accuracy) pair get_ab_test_results reads for
a group: the stored counters, or the zero fallback. -/
def groupPerfQ (st : AnalyzerState) (version : String) : Nat × ℚ :=
  match lookupQ st.version_performance version with
  | some p => (p.total_predictions, p.accuracy)
  | none => (0, 0)

/-- The report of LLMAnalyzer.get_ab_test_results. -/
structure ABResults where
  perf_a : Nat × ℚ
  perf_b : Nat × ℚ
  winner : String
  recommendation : Option String
deriving DecidableEq, Repr

/-- LLMAnalyzer.get_ab_test_results: an error dictionary when A/B testing
is disabled; otherwise per-group performance, a winner by accuracy only
when both groups have strictly more than 10 recorded predictions
(otherwise "insufficient_data"), and the winning version as
recommendation. -/
def get_ab_test_results (st : AnalyzerState) : Except String ABResults :=
  if st.ab_testing_enabled = false then
    Except.error "A/B testing not enabled"
  else
    let pa := groupPerfQ st st.ab_group_a
    let pb := groupPerfQ st st.ab_group_b
    let winner :=
      if 10 < pa.1 ∧ 10 < pb.1 then
        if pb.2 < pa.2 then "A"
        else if pa.2 < pb.2 then "B"
        else "tie"
      else "insufficient_data"
    Except.ok
      { perf_a := pa, perf_b := pb, winner := winner
        recommendation :=
          if winner = "A" then some st.ab_group_a
          else if winner = "B" then some st.ab_group_b
          else none }

/-- Whether the first list is an initial segment of the second. -/
def startsWithQ : List Char → List Char → Bool
  | [], _ => true
  | _ :: _, [] => false
  | a :: xs, b :: ys => a == b && startsWithQ xs ys

/-- Python substring containment (needle in haystack). -/
def hasSubstrQ (needle : List Char) : List Char → Bool
  | [] => needle.isEmpty
  | c :: rest => startsWithQ needle (c :: rest) || hasSubstrQ needle rest

/-- LLMAnalyzer._calculate_entropy: Shannon entropy of the character
frequency distribution, log2 abstracted; 0 on the empty string. -/
def calculate_entropy (log2Q : ℚ → ℚ) (text : List Char) : ℚ :=
  if text = [] then 0
  else
    (text.dedup.map (fun c =>
      let p : ℚ := (text.count c : ℚ) / (text.length : ℚ);
      -(p * log2Q p))).sum

/-- LLMAnalyzer._is_base64: length divisible by 4 and a base64 charset. -/
def is_base64 (text : List Char) : Bool :=
  text.length % 4 = 0 &&
    text.all (fun c => c.isAlphanum || c == '+' || c == '/' || c == '=')

/-- LLMAnalyzer._is_hex: length at least 32, all hex digits. -/
def is_hex (text : List Char) : Bool :=
  32 ≤ text.length &&
    text.all (fun c => c.isDigit || ('a' ≤ c && c ≤ 'f') || ('A' ≤ c && c ≤ 'F'))

/-- LLMAnalyzer._analyze_context_risk: 0.2 per risk keyword occurring in
the lowercased context, clamped to 1. -/
def analyze_context_risk (context : List Char) : ℚ :=
  let lower := context.map Char.toLower
  let risk := (["auth", "key", "secret", "token", "password"].map
    (fun kw => if hasSubstrQ kw.toList lower then (2 : ℚ) / 10 else 0)).sum
  min 1 risk

/-- LLMAnalyzer._score_variable_name: 0 when missing or empty, 0.8 for
an ALL-CAPS name, 0.6 when it contains secret/key/token, else 0.2. -/
def score_variable_name (name : Option String) : ℚ :=
  match name with
  | none => 0
  | some n =>
      if n = "" then 0
      else if n.toList.map Char.toUpper = n.toList then 8 / 10
      else if (["secret", "key", "token"].map
          (fun w => hasSubstrQ w.toList (n.toList.map Char.toLower))).any id
        then 6 / 10
      else 2 / 10

/-- re.match of the seven anchored secret-shape patterns of
LLMAnalyzer._detect_common_secret_patterns, unfolded to explicit prefix
tests. -/
def detect_common_secret_patterns (secret : List Char) : ℚ :=
  let alnum := fun c : Char => c.isAlphanum
  let lowhex := fun c : Char => c.isDigit || ('a' ≤ c && c ≤ 'f')
  let fixedRun := fun (p : String) (n : Nat) =>
    startsWithQ p.toList secret &&
      n ≤ (secret.drop p.length).length &&
      ((secret.drop p.length).take n).all alnum
  let stripe := fixedRun "sk-" 20
  let aws := fixedRun "AKIAI" 16
  let github := fixedRun "ghp_" 36
  let slack := match secret with
    | 'x' :: 'o' :: 'x' :: c1 :: '-' :: c2 :: _ =>
        (['b', 'a', 'p', 'r', 's'].contains c1) && (alnum c2 || c2 == '-')
    | _ => false
  let hexRun := fun (n : Nat) => n ≤ secret.length && (secret.take n).all lowhex
  if stripe || aws || github || slack || hexRun 32 || hexRun 40 || hexRun 64
    then 1 else 0

/-- LLMAnalyzer._analyze_secret_structure: alternating alnum density
(only when longer than 10), separator density, and a length bucket bonus,
clamped to 1; 0 on the empty string. -/
def analyze_secret_structure (secret : List Char) : ℚ :=
  if secret = [] then 0
  else
    let pairs := List.zip secret secret.tail
    let alternating : Nat := (pairs.filter (fun p =>
      (p.1.isAlpha && p.2.isDigit) || (p.1.isDigit && p.2.isAlpha))).length
    let s1 : ℚ :=
      if 10 < secret.length then
        min 1 ((alternating : ℚ) / ((secret.length : ℚ) * (3 / 10)))
      else 0
    let sep_count : ℚ :=
      (if secret.contains '-' then 1 else 0) +
      (if secret.contains '_' then 1 else 0) +
      (if secret.contains '.' then 1 else 0)
    let s2 := min 1 (sep_count * (3 / 10))
    let s3 : ℚ :=
      if 20 ≤ secret.length ∧ secret.length ≤ 100 then 3 / 10
      else if 100 < secret.length then 1 / 10
      else 0
    min 1 (s1 + s2 + s3)

/-- LLMAnalyzer._check_entropy_distribution: mean and population standard
deviation of the entropies of sliding 8-character windows, blended 50/50
after clamping; 0 when the secret is shorter than 8. -/
def check_entropy_distribution (log2Q sqrtQ : ℚ → ℚ)
    (secret : List Char) : ℚ :=
  if secret.length < 8 then 0
  else
    let window_size := min 8 secret.length
    let entropies := (List.range (secret.length - window_size + 1)).map
      (fun i => calculate_entropy log2Q ((secret.drop i).take window_size))
    if entropies = [] then 0
    else
      let entropy_mean := entropies.sum / (entropies.length : ℚ)
      let entropy_var :=
        (entropies.map (fun e => (e - entropy_mean) ^ 2)).sum /
          (entropies.length : ℚ)
      let entropy_std := sqrtQ entropy_var
      let consistency_score := 1 - min 1 (entropy_std / 2)
      let level_score := min 1 (entropy_mean / 4)
      (consistency_score + level_score) / 2

/-- LLMAnalyzer._detect_api_key_patterns: best of the case-insensitive
service-prefix scores, the base64-like suffix score, and the balanced
alnum-distribution score; 0 when shorter than 10. -/
def detect_api_key_patterns (secret : List Char) : ℚ :=
  if secret.length < 10 then 0
  else
    let lower := secret.map Char.toLower
    let prefScores : List (String × ℚ) :=
      [("sk-", 1), ("pk-", 1), ("akiai", 1), ("ghp_", 1), ("xox", 1),
       ("bearer ", 8 / 10), ("token ", 8 / 10), ("apikey", 6 / 10),
       ("secret", 6 / 10)]
    let s0 := prefScores.foldl
      (fun acc p => if startsWithQ p.1.toList lower then max acc p.2 else acc)
      (0 : ℚ)
    let s1 := if secret.getLast? = some '=' then max s0 (7 / 10) else s0
    let alpha_count : Nat := (secret.filter Char.isAlpha).length
    let digit_count : Nat := (secret.filter Char.isDigit).length
    let total : ℚ := (secret.length : ℚ)
    let alphaFrac := (alpha_count : ℚ) / total
    let digitFrac := (digit_count : ℚ) / total
    if 3 / 10 ≤ alphaFrac ∧ alphaFrac ≤ 8 / 10 ∧
        1 / 10 ≤ digitFrac ∧ digitFrac ≤ 6 / 10
      then max s1 (4 / 10) else s1

/-- LLMAnalyzer._analyze_context_keywords: weighted keyword buckets plus
quote and equals bonuses, clamped to 1; 0 on the empty context. -/
def analyze_context_keywords (context : List Char) : ℚ :=
  if context = [] then 0
  else
    let lower := context.map Char.toLower
    let hits := fun (kws : List String) (w : ℚ) =>
      (kws.map (fun kw => if hasSubstrQ kw.toList lower then w else 0)).sum
    let score :=
      hits ["password", "secret", "key", "token", "auth", "credential"] (3 / 10) +
      hits ["config", "env", "api", "access", "private", "secure"] (15 / 100) +
      hits ["const", "let", "var", "export", "process.env"] (5 / 100) +
      (if context.contains '"' || context.contains '\'' ||
          context.contains '`' then (1 : ℚ) / 10 else 0) +
      (if context.contains '=' then (1 : ℚ) / 10 else 0)
    min 1 score

/-- LLMAnalyzer._extract_features: the ordered 19-entry feature vector. -/
def extract_features (log2Q sqrtQ : ℚ → ℚ) (secret_value context : String)
    (variable_name : Option String) : VecQ :=
  let s := secret_value.toList
  let ctx := context.toList
  let special := "!#$%&()*+,-./:;<=>?@[\\]^_`{|}~".toList
  [ (s.length : ℚ),
    calculate_entropy log2Q s,
    if s.any (fun c => special.contains c) then 1 else 0,
    if s.any Char.isDigit then 1 else 0,
    if s.any Char.isUpper then 1 else 0,
    if s.any Char.isLower then 1 else 0,
    if s ≠ [] then (s.dedup.length : ℚ) / (s.length : ℚ) else 0,
    if (["sk-", "pk_", "AKIAI", "ghp_", "xox", "Bearer ", "Token "].map
        (fun p => startsWithQ p.toList s)).any id then 1 else 0,
    if is_base64 s then 1 else 0,
    if is_hex s then 1 else 0,
    analyze_context_risk ctx,
    if ctx.contains '"' || ctx.contains '\'' || ctx.contains '`' then 1 else 0,
    ((["const", "let", "var", "process.env", "config", "secret", "key",
       "token", "auth"].filter
        (fun kw => hasSubstrQ kw.toList (ctx.map Char.toLower))).length : ℚ),
    score_variable_name variable_name,
    detect_common_secret_patterns s,
    analyze_secret_structure s,
    check_entropy_distribution log2Q sqrtQ s,
    detect_api_key_patterns s,
    analyze_context_keywords ctx ]

/-- A simple positive stand-in for the abstract transcendental
parameters, used to instantiate theorems at concrete inputs. -/
def oneFun : ℚ → ℚ := fun _ => 1

/-- A small concrete configuration for concrete instantiations. -/
def exampleConfig : ModelConfig :=
  { vocab_size := 1000, hidden_dim := 1, num_layers := 0, num_heads := 1,
    max_seq_len := 2, num_classes := 4, dropout := 0 }

/-- A small concrete model state for concrete instantiations. -/
def exampleModel : Model :=
  { config := exampleConfig
    token_embedding := List.replicate 1000 [0]
    feature_embedding := List.replicate 19 [0]
    pos_encoding := [[0], [0]]
    layers := []
    classifier := [[1, 0, 0, 0]]
    classifier_bias := [0, 0, 0, 0]
    is_trained := false
    learning_rate := 1 / 1000
    training_samples := []
    confidence_calibration := []
    calibration_samples := [] }

/-- A training sample with an empty secret and a 19-entry feature
vector: it is not length-skipped, and its token sequence is empty. -/
def exampleBadSample : SampleQ :=
  { secret_value := "", features := List.replicate 19 0, label := "low" }

/-- A training sample with a non-empty secret and 19 features. -/
def exampleGoodSample : SampleQ :=
  { secret_value := "ab", features := List.replicate 19 0, label := "low" }

/-- A concrete analyzer state with A/B testing enabled and both groups
holding 5 recorded predictions. -/
def exampleABState : AnalyzerState :=
  { config := exampleConfig, model := exampleModel, model_versions := [],
    active_version := "default", ab_testing_enabled := true,
    ab_group_a := "default", ab_group_b := "default",
    version_performance := [("default",
      { total_predictions := 5, correct_predictions := 3,
        accuracy := 3 / 5, created_at := none })] }

lemma sum_map_div (l : List ℚ) (c : ℚ) :
    (l.map (fun v => v / c)).sum = l.sum / c := by
  induction l with
  | nil => simp
  | cons a t ih => simp [ih, add_div]

lemma softmaxQ_length (expQ : ℚ → ℚ) (x : VecQ) :
    (softmaxQ expQ x).length = x.length := by
  simp [softmaxQ]

lemma softmaxQ_sum (expQ : ℚ → ℚ) (hpos : ∀ y, 0 < expQ y) (x : VecQ)
    (hx : x ≠ []) : (softmaxQ expQ x).sum = 1 := by
  unfold softmaxQ
  have hmem : ∀ v ∈ x.map (fun v => expQ (v - listMaxQ x)), 0 < v := by
    intro v hv
    rcases List.mem_map.mp hv with ⟨a, _, rfl⟩
    exact hpos _
  have hsum : 0 < (x.map (fun v => expQ (v - listMaxQ x))).sum :=
    List.sum_pos _ hmem (by simpa using hx)
  simp only [sum_map_div]
  exact div_self (ne_of_gt hsum)

lemma softmaxQ_mem_bounds (expQ : ℚ → ℚ) (hpos : ∀ y, 0 < expQ y) (x : VecQ)
    (p : ℚ) (hp : p ∈ softmaxQ expQ x) : 0 ≤ p ∧ p ≤ 1 := by
  unfold softmaxQ at hp
  set ex := x.map (fun v => expQ (v - listMaxQ x)) with hex
  rcases List.mem_map.mp hp with ⟨v, hv, rfl⟩
  have hvpos : 0 < v := by
    rcases List.mem_map.mp hv with ⟨a, _, rfl⟩
    exact hpos _
  have hnonneg : ∀ w ∈ ex, 0 ≤ w := by
    intro w hw
    rcases List.mem_map.mp hw with ⟨a, _, rfl⟩
    exact le_of_lt (hpos _)
  have hvle : v ≤ ex.sum := List.single_le_sum hnonneg v hv
  have hsumpos : 0 < ex.sum := lt_of_lt_of_le hvpos hvle
  exact ⟨div_nonneg (le_of_lt hvpos) (le_of_lt hsumpos),
    (div_le_one hsumpos).mpr hvle⟩

lemma argmaxAux_lt (xs : List ℚ) : ∀ (bv : ℚ) (best i : Nat), best < i →
    argmaxAux xs bv best i < i + xs.length := by
  induction xs with
  | nil => intro bv best i h; simpa [argmaxAux] using h
  | cons a t ih =>
      intro bv best i h
      simp only [argmaxAux, List.length_cons]
      by_cases hc : bv < a
      · simp only [if_pos hc]
        have := ih a i (i + 1) (Nat.lt_succ_self i)
        omega
      · simp only [if_neg hc]
        have := ih bv best (i + 1) (Nat.lt_succ_of_lt h)
        omega

lemma argmaxQ_lt_length (x : VecQ) (hx : x ≠ []) : argmaxQ x < x.length := by
  cases x with
  | nil => exact absurd rfl hx
  | cons a t =>
      have := argmaxAux_lt t a 0 1 Nat.one_pos
      simpa [argmaxQ, Nat.add_comm] using this

lemma rowMatMulQ_length (r : VecQ) (m : MatQ) :
    (rowMatMulQ r m).length = numColsQ m := by
  simp [rowMatMulQ]

lemma addVecQ_length (a b : VecQ) :
    (addVecQ a b).length = min a.length b.length := by
  simp [addVecQ]

lemma logitsQ_length (expQ sqrtQ : ℚ → ℚ) (m : Model) (s : String) (f : VecQ)
    (hcls : m.classifier ≠ []) (hrow : ∀ r ∈ m.classifier, r.length = 4)
    (hb : m.classifier_bias.length = 4) :
    (logitsQ expQ sqrtQ m s f).length = 4 := by
  have hcols : numColsQ m.classifier = 4 := by
    unfold numColsQ
    cases hm : m.classifier with
    | nil => exact absurd hm hcls
    | cons r rest =>
        have : r ∈ m.classifier := by rw [hm]; exact List.mem_cons_self r rest
        simpa using hrow r this
  unfold logitsQ
  rw [addVecQ_length, rowMatMulQ_length, hcols, hb]
  simp

lemma probsQ_length (expQ sqrtQ : ℚ → ℚ) (m : Model) (s : String) (f : VecQ)
    (hcls : m.classifier ≠ []) (hrow : ∀ r ∈ m.classifier, r.length = 4)
    (hb : m.classifier_bias.length = 4) :
    (probsQ expQ sqrtQ m s f).length = 4 := by
  unfold probsQ
  rw [softmaxQ_length, logitsQ_length expQ sqrtQ m s f hcls hrow hb]

lemma forward_of_tokens_ne_nil (expQ sqrtQ : ℚ → ℚ) (m : Model) (s : String)
    (f : VecQ) (htok : tokenize_secret m.config s ≠ []) :
    forward expQ sqrtQ m s f =
      { prediction := labelsQ.getD (argmaxQ (probsQ expQ sqrtQ m s f)) ""
        confidence := (probsQ expQ sqrtQ m s f).getD
          (argmaxQ (probsQ expQ sqrtQ m s f)) 0
        probabilities := some (probsQ expQ sqrtQ m s f) } := by
  unfold forward
  rw [if_neg (by simpa using htok)]

/-- C9: for every secret string, context string, and optional variable
name — including empty strings — the feature extractor returns a vector
of length exactly 19; it is a total (hence deterministic, non-raising)
function of its inputs. -/
theorem extract_features_length (log2Q sqrtQ : ℚ → ℚ)
    (secret_value context : String) (variable_name : Option String) :
    (extract_features log2Q sqrtQ secret_value context variable_name).length
      = 19 := rfl

/-- C3: the tokenizer maps the empty string to the empty token sequence,
and forward on the empty secret returns exactly the low/0.0 fallback with
no probability vector (a returned value, not an exception). -/
theorem forward_empty_secret (expQ sqrtQ : ℚ → ℚ) (cfg : ModelConfig)
    (m : Model) (f : VecQ) :
    tokenize_secret cfg "" = [] ∧
    forward expQ sqrtQ m "" f =
      { prediction := "low", confidence := 0, probabilities := none } := by
  constructor
  · simp [tokenize_secret]
  · unfold forward
    rw [if_pos (by simp [tokenize_secret])]

/-- C10: for every feature vector and target label, train_step with the
empty secret escapes as a KeyError rather than returning a loss: the
empty-input fallback of forward carries no probabilities entry, and
train_step unconditionally reads that entry. -/
theorem train_step_empty_secret_keyerror (expQ sqrtQ logQ : ℚ → ℚ)
    (m : Model) (f : VecQ) (target_label : String) :
    (forward expQ sqrtQ m "" f).probabilities = none ∧
    train_step expQ sqrtQ logQ m "" f target_label =
      (m, Except.error PyError.keyError) := by
  have hfwd : forward expQ sqrtQ m "" f =
      { prediction := "low", confidence := 0, probabilities := none } := by
    unfold forward
    rw [if_pos (by simp [tokenize_secret])]
  refine ⟨by rw [hfwd], ?_⟩
  unfold train_step
  rw [hfwd]

/-- C2: train_step mutates only the classification head — for every
input, the token embedding, feature embedding, positional table, and
transformer layer weights of the post-call state equal the pre-call
ones. -/
theorem train_step_frame (expQ sqrtQ logQ : ℚ → ℚ) (m : Model) (s : String)
    (f : VecQ) (target_label : String) :
    (train_step expQ sqrtQ logQ m s f target_label).1.token_embedding
        = m.token_embedding ∧
    (train_step expQ sqrtQ logQ m s f target_label).1.feature_embedding
        = m.feature_embedding ∧
    (train_step expQ sqrtQ logQ m s f target_label).1.pos_encoding
        = m.pos_encoding ∧
    (train_step expQ sqrtQ logQ m s f target_label).1.layers = m.layers := by
  unfold train_step
  cases hp : (forward expQ sqrtQ m s f).probabilities with
  | none => simp
  | some probs =>
      simp only
      unfold simple_gradient_update
      by_cases h1 : tokenize_secret m.config s = []
      · simp [h1]
      · by_cases h2 : argmaxQ probs = labelIndexQ target_label
        · simp [h1, h2]
        · simp [h1, h2]

lemma tokenize_ne_nil (cfg : ModelConfig) (s : String) (hs : s ≠ "")
    (hlen : 0 < cfg.max_seq_len) : tokenize_secret cfg s ≠ [] := by
  unfold tokenize_secret
  intro h
  rcases List.map_eq_nil.mp h with htake
  rcases List.take_eq_nil_iff.mp htake with h0 | hnil
  · omega
  · exact hs (by
      apply String.ext
      simpa [String.toList] using hnil)

/-- C4: for every non-empty secret (under a positive sequence budget),
every 19-dim feature vector, and every model whose classification head
has 4 columns and a length-4 bias, the probability vector returned by
forward has every entry in [0,1] and sums to exactly 1 (hence within the
1e-6 tolerance), the prediction is the label at its argmax, and the
confidence is the probability at its argmax.  expQ ranges over positive
functions, as the real exponential is. -/
theorem forward_probability_vector (expQ sqrtQ : ℚ → ℚ) (m : Model)
    (s : String) (f : VecQ)
    (hexp : ∀ y, 0 < expQ y)
    (hs : s ≠ "") (hseq : 0 < m.config.max_seq_len)
    (hf : f.length = 19)
    (hcls : m.classifier ≠ []) (hrow : ∀ r ∈ m.classifier, r.length = 4)
    (hb : m.classifier_bias.length = 4) :
    ∃ probs : VecQ,
      (forward expQ sqrtQ m s f).probabilities = some probs ∧
      probs.length = 4 ∧
      probs.sum = 1 ∧
      |probs.sum - 1| ≤ 1 / 1000000 ∧
      (∀ p ∈ probs, 0 ≤ p ∧ p ≤ 1) ∧
      (forward expQ sqrtQ m s f).prediction = labelsQ.getD (argmaxQ probs) "" ∧
      (forward expQ sqrtQ m s f).confidence = probs.getD (argmaxQ probs) 0 := by
  have htok := tokenize_ne_nil m.config s hs hseq
  have hfwd := forward_of_tokens_ne_nil expQ sqrtQ m s f htok
  refine ⟨probsQ expQ sqrtQ m s f, by rw [hfwd], ?_, ?_, ?_, ?_, by rw [hfwd],
    by rw [hfwd]⟩
  · exact probsQ_length expQ sqrtQ m s f hcls hrow hb
  · have hlog : logitsQ expQ sqrtQ m s f ≠ [] := by
      intro h
      have := logitsQ_length expQ sqrtQ m s f hcls hrow hb
      rw [h] at this
      simp at this
    exact softmaxQ_sum expQ hexp _ hlog
  · have hlog : logitsQ expQ sqrtQ m s f ≠ [] := by
      intro h
      have := logitsQ_length expQ sqrtQ m s f hcls hrow hb
      rw [h] at this
      simp at this
    have h1 : (probsQ expQ sqrtQ m s f).sum = 1 := by
      unfold probsQ
      exact softmaxQ_sum expQ hexp _ hlog
    rw [h1]
    norm_num
  · intro p hp
    exact softmaxQ_mem_bounds expQ hexp _ p hp

/-- Witness for C4 at a concrete model, secret, and feature vector, with
a concrete positive stand-in for exp. -/
theorem forward_probability_vector_witness :
    (∀ y, (0 : ℚ) < oneFun y) ∧ ("ab" ≠ "") ∧
      (0 < exampleModel.config.max_seq_len) ∧
      ((List.replicate 19 (0 : ℚ)).length = 19) ∧
      (exampleModel.classifier ≠ []) ∧
      (∀ r ∈ exampleModel.classifier, r.length = 4) ∧
      (exampleModel.classifier_bias.length = 4) ∧
      (∃ probs : VecQ,
        (forward oneFun oneFun exampleModel "ab"
          (List.replicate 19 0)).probabilities = some probs ∧
        probs.length = 4 ∧
        probs.sum = 1 ∧
        |probs.sum - 1| ≤ 1 / 1000000 ∧
        (∀ p ∈ probs, 0 ≤ p ∧ p ≤ 1) ∧
        (forward oneFun oneFun exampleModel "ab"
          (List.replicate 19 0)).prediction = labelsQ.getD (argmaxQ probs) "" ∧
        (forward oneFun oneFun exampleModel "ab"
          (List.replicate 19 0)).confidence = probs.getD (argmaxQ probs) 0) := by
  refine ⟨fun y => one_pos, by decide, by decide, by decide, by decide,
    by decide, by decide, ?_⟩
  exact forward_probability_vector oneFun oneFun exampleModel "ab"
    (List.replicate 19 0) (fun y => one_pos) (by decide) (by decide)
    (by decide) (by decide) (by decide) (by decide)

lemma getD_set_self (l : List ℚ) (i : Nat) (a : ℚ) (h : i < l.length) :
    (l.set i a).getD i 0 = a := by
  induction l generalizing i with
  | nil => simp at h
  | cons x t ih =>
      cases i with
      | zero => rfl
      | succ n =>
          simp only [List.set, List.getD_cons_succ]
          exact ih n (by simpa using h)

lemma getD_set_ne (l : List ℚ) (i j : Nat) (a : ℚ) (h : i ≠ j) :
    (l.set i a).getD j 0 = l.getD j 0 := by
  induction l generalizing i j with
  | nil => simp
  | cons x t ih =>
      cases i with
      | zero =>
          cases j with
          | zero => exact absurd rfl h
          | succ n => rfl
      | succ n =>
          cases j with
          | zero => rfl
          | succ k =>
              simp only [List.set, List.getD_cons_succ]
              exact ih n k (by omega)

lemma getD_map_row (l : MatQ) (f : VecQ → VecQ) (i : Nat) (h : i < l.length) :
    (l.map f).getD i [] = f (l.getD i []) := by
  have h' : i < (l.map f).length := by simpa using h
  rw [List.getD_eq_getElem _ _ h', List.getD_eq_getElem _ _ h]
  simp

lemma getD_mapIdx (l : VecQ) (f : Nat → ℚ → ℚ) (j : Nat) (h : j < l.length) :
    (l.mapIdx f).getD j 0 = f j (l.getD j 0) := by
  have h' : j < (l.mapIdx f).length := by
    simpa [List.length_mapIdx] using h
  rw [List.getD_eq_getElem _ _ h', List.getD_eq_getElem _ _ h]
  simpa using List.get_mapIdx l f j h

lemma getD_mem_of_lt (l : MatQ) (i : Nat) (h : i < l.length) :
    l.getD i [] ∈ l := by
  rw [List.getD_eq_getElem _ _ h]
  exact List.getElem_mem h

lemma labelIndexQ_lt (lbl : String) : labelIndexQ lbl < 4 := by
  unfold labelIndexQ
  split
  · omega
  · split
    · omega
    · split
      · omega
      · split <;> omega

/-- C1: on a non-empty token sequence, a 19-dim feature vector, and a
valid target label, train_step returns loss
-log(prob[target] + 1e-8) from the forward probabilities; exactly when
the argmax differs from the target it adds learning_rate * 0.1 to
bias[target] and to classifier column target while subtracting it from
bias[predicted] and classifier column predicted, and when the argmax
equals the target no parameter changes. -/
theorem train_step_update_rule (expQ sqrtQ logQ : ℚ → ℚ) (m : Model)
    (s : String) (f : VecQ) (target_label : String)
    (htok : tokenize_secret m.config s ≠ [])
    (hf : f.length = 19)
    (hlbl : target_label ∈ labelsQ)
    (hcls : m.classifier ≠ []) (hrow : ∀ r ∈ m.classifier, r.length = 4)
    (hb : m.classifier_bias.length = 4) :
    ∃ probs : VecQ,
      (forward expQ sqrtQ m s f).probabilities = some probs ∧
      (train_step expQ sqrtQ logQ m s f target_label).2 =
        Except.ok (-(logQ (probs.getD (labelIndexQ target_label) 0
          + 1 / 100000000))) ∧
      (argmaxQ probs = labelIndexQ target_label →
        (train_step expQ sqrtQ logQ m s f target_label).1 = m) ∧
      (argmaxQ probs ≠ labelIndexQ target_label →
        (∀ j < 4,
          (train_step expQ sqrtQ logQ m s f target_label).1.classifier_bias.getD
              j 0 =
            m.classifier_bias.getD j 0
              + (if j = labelIndexQ target_label
                  then m.learning_rate * (1 / 10) else 0)
              - (if j = argmaxQ probs
                  then m.learning_rate * (1 / 10) else 0)) ∧
        (train_step expQ sqrtQ logQ m s f target_label).1.classifier.length =
          m.classifier.length ∧
        (∀ i < m.classifier.length, ∀ j < 4,
          ((train_step expQ sqrtQ logQ m s f
              target_label).1.classifier.getD i []).getD j 0 =
            (m.classifier.getD i []).getD j 0
              + (if j = labelIndexQ target_label
                  then m.learning_rate * (1 / 10) else 0)
              - (if j = argmaxQ probs
                  then m.learning_rate * (1 / 10) else 0))) := by
  have hfwd := forward_of_tokens_ne_nil expQ sqrtQ m s f htok
  set probs := probsQ expQ sqrtQ m s f with hprobs
  have hplen : probs.length = 4 := probsQ_length expQ sqrtQ m s f hcls hrow hb
  have hstep : train_step expQ sqrtQ logQ m s f target_label =
      (simple_gradient_update m s (labelIndexQ target_label) probs,
        Except.ok (-(logQ (probs.getD (labelIndexQ target_label) 0
          + 1 / 100000000)))) := by
    unfold train_step
    rw [hfwd]
  refine ⟨probs, by rw [hfwd], by rw [hstep], ?_, ?_⟩
  · intro heq
    rw [hstep]
    unfold simple_gradient_update
    rw [if_neg htok]
    simp [heq]
  · intro hne
    have ht4 : labelIndexQ target_label < 4 := labelIndexQ_lt target_label
    have hp4 : argmaxQ probs < 4 := by
      have := argmaxQ_lt_length probs (by
        intro h0
        rw [h0] at hplen
        simp at hplen)
      omega
    have hsgu : simple_gradient_update m s (labelIndexQ target_label) probs =
        { m with
          classifier_bias :=
            (m.classifier_bias.set (labelIndexQ target_label)
              (m.classifier_bias.getD (labelIndexQ target_label) 0
                + m.learning_rate * (1 / 10))).set (argmaxQ probs)
              (((m.classifier_bias.set (labelIndexQ target_label)
                (m.classifier_bias.getD (labelIndexQ target_label) 0
                  + m.learning_rate * (1 / 10)))).getD (argmaxQ probs) 0
                - m.learning_rate * (1 / 10))
          classifier := m.classifier.map (fun row =>
            row.mapIdx (fun j x => x +
              (if j = argmaxQ probs then -(m.learning_rate * (1 / 10))
               else if j = labelIndexQ target_label
                 then m.learning_rate * (1 / 10) else 0))) } := by
      unfold simple_gradient_update
      rw [if_neg htok]
      simp [hne]
    rw [hstep]
    simp only
    rw [hsgu]
    refine ⟨?_, by simp, ?_⟩
    · intro j hj
      simp only
      by_cases hjp : j = argmaxQ probs
      · subst hjp
        rw [getD_set_self _ _ _ (by simp [hb]; omega)]
        rw [getD_set_ne _ _ _ _ (by omega)]
        simp [hne]
      · rw [getD_set_ne _ _ _ _ (by omega)]
        by_cases hjt : j = labelIndexQ target_label
        · subst hjt
          rw [getD_set_self _ _ _ (by omega)]
          simp [hjp, hne]
        · rw [getD_set_ne _ _ _ _ (by omega)]
          simp [hjp, hjt]
    · intro i hi j hj
      simp only
      rw [getD_map_row _ _ _ hi]
      have hrlen : (m.classifier.getD i []).length = 4 :=
        hrow _ (getD_mem_of_lt m.classifier i hi)
      rw [getD_mapIdx _ _ _ (by omega)]
      by_cases hjp : j = argmaxQ probs
      · subst hjp
        rw [if_pos rfl, if_neg hne, if_pos rfl]
        ring
      · by_cases hjt : j = labelIndexQ target_label
        · subst hjt
          rw [if_neg hjp, if_pos rfl, if_neg hjp]
          ring
        · rw [if_neg hjp, if_neg hjt, if_neg hjp]
          ring

/-- Witness for C1 at a concrete model, secret, features, and label. -/
theorem train_step_update_rule_witness :
    (tokenize_secret exampleModel.config "ab" ≠ []) ∧
      ((List.replicate 19 (0 : ℚ)).length = 19) ∧
      ("high" ∈ labelsQ) ∧
      (exampleModel.classifier ≠ []) ∧
      (∀ r ∈ exampleModel.classifier, r.length = 4) ∧
      (exampleModel.classifier_bias.length = 4) ∧
      (∃ probs : VecQ,
        (forward oneFun oneFun exampleModel "ab"
          (List.replicate 19 0)).probabilities = some probs ∧
        (train_step oneFun oneFun oneFun exampleModel "ab"
          (List.replicate 19 0) "high").2 =
          Except.ok (-(oneFun (probs.getD (labelIndexQ "high") 0
            + 1 / 100000000)))) := by
  refine ⟨by decide, by decide, by decide, by decide, by decide, by decide, ?_⟩
  obtain ⟨probs, h1, h2, -, -⟩ := train_step_update_rule oneFun oneFun oneFun
    exampleModel "ab" (List.replicate 19 0) "high" (by decide) (by decide)
    (by decide) (by decide) (by decide) (by decide)
  exact ⟨probs, h1, h2⟩

lemma lookupQ_append_none {α : Type} (l : List (String × α)) (k : String)
    (v : α) (h : lookupQ l k = none) : lookupQ (l ++ [(k, v)]) k = some v := by
  induction l with
  | nil => simp [lookupQ]
  | cons p rest ih =>
      obtain ⟨pk, pv⟩ := p
      by_cases hk : pk = k
      · simp [lookupQ, hk] at h
      · simp only [List.cons_append, lookupQ, if_neg hk] at h ⊢
        exact ih h

lemma lookupQ_setAssocQ_self {α : Type} (l : List (String × α)) (k : String)
    (v w : α) (h : lookupQ l k = some w) :
    lookupQ (setAssocQ l k v) k = some v := by
  induction l with
  | nil => simp [lookupQ] at h
  | cons p rest ih =>
      obtain ⟨pk, pv⟩ := p
      by_cases hk : pk = k
      · simp [setAssocQ, lookupQ, hk]
      · simp only [lookupQ, if_neg hk] at h
        simp only [setAssocQ, if_neg hk, lookupQ]
        exact ih h

/-- C6: calibrate_confidence appends the predicted confidence to the
label's history (and records the calibration sample); once the label's
history holds more than 5 entries the returned value is
clamp(0.7 * predicted + 0.3 * mean(history), 0, 1), and with 5 or fewer
entries the predicted confidence is returned unchanged. -/
theorem calibrate_confidence_rule (m : Model) (p : ℚ) (lbl : String) :
    lookupQ (calibrate_confidence m p lbl).2.confidence_calibration lbl =
      some ((lookupQ m.confidence_calibration lbl).getD [] ++ [p]) ∧
    (calibrate_confidence m p lbl).2.calibration_samples =
      m.calibration_samples ++ [(p, lbl)] ∧
    (calibrate_confidence m p lbl).1 =
      (if 5 < ((lookupQ m.confidence_calibration lbl).getD [] ++ [p]).length
       then
        min 1 (max 0 (p * (7 / 10) +
          (((lookupQ m.confidence_calibration lbl).getD [] ++ [p]).sum /
            ((((lookupQ m.confidence_calibration lbl).getD [] ++ [p]).length : ℚ)))
            * (3 / 10)))
       else p) := by
  cases hl : lookupQ m.confidence_calibration lbl with
  | none =>
      have h1 : lookupQ (m.confidence_calibration ++ [(lbl, [])]) lbl
          = some [] := lookupQ_append_none _ _ _ hl
      have h2 : lookupQ (setAssocQ (m.confidence_calibration ++ [(lbl, [])])
          lbl ([] ++ [p])) lbl = some ([] ++ [p]) :=
        lookupQ_setAssocQ_self _ _ _ _ h1
      simp only [calibrate_confidence, hl, h1, Option.getD_some,
        Option.getD_none]
      rw [if_neg (by simp), if_neg (by simp)]
      exact ⟨h2, rfl, rfl⟩
  | some hist =>
      have h2 : lookupQ (setAssocQ m.confidence_calibration lbl (hist ++ [p]))
          lbl = some (hist ++ [p]) := lookupQ_setAssocQ_self _ _ _ _ hl
      by_cases hc : 5 < (hist ++ [p]).length
      · simp only [calibrate_confidence, hl, Option.getD_some]
        rw [if_pos hc, if_pos hc]
        exact ⟨h2, rfl, rfl⟩
      · simp only [calibrate_confidence, hl, Option.getD_some]
        rw [if_neg hc, if_neg hc]
        exact ⟨h2, rfl, rfl⟩

/-- C7: with A/B testing enabled, get_ab_test_results reports the two
group performances and declares a winner (by higher accuracy, or a tie)
exactly when both groups have strictly more than 10 recorded
predictions; otherwise the winner field is "insufficient_data". -/
theorem ab_test_winner_rule (st : AnalyzerState)
    (hen : st.ab_testing_enabled = true) :
    ∃ r : ABResults, get_ab_test_results st = Except.ok r ∧
      r.perf_a = groupPerfQ st st.ab_group_a ∧
      r.perf_b = groupPerfQ st st.ab_group_b ∧
      (r.winner ≠ "insufficient_data" ↔
        (10 < r.perf_a.1 ∧ 10 < r.perf_b.1)) ∧
      (10 < r.perf_a.1 ∧ 10 < r.perf_b.1 →
        r.winner = (if r.perf_b.2 < r.perf_a.2 then "A"
          else if r.perf_a.2 < r.perf_b.2 then "B" else "tie")) := by
  unfold get_ab_test_results
  rw [if_neg (by simp [hen])]
  refine ⟨_, rfl, rfl, rfl, ?_, ?_⟩
  · by_cases hc : 10 < (groupPerfQ st st.ab_group_a).1 ∧
        10 < (groupPerfQ st st.ab_group_b).1
    · simp only [if_pos hc]
      constructor
      · intro _
        exact hc
      · intro _
        split
        · decide
        · split <;> decide
    · simp only [if_neg hc]
      constructor
      · intro h
        exact absurd rfl h
      · intro h
        exact absurd h hc
  · intro hc
    simp only [if_pos hc]

/-- Witness for C7 at a concrete enabled state whose two groups both
have exactly 5 recorded predictions (the winner there is
insufficient_data by the reported equivalence). -/
theorem ab_test_winner_rule_witness :
    (exampleABState.ab_testing_enabled = true) ∧
      (∃ r : ABResults, get_ab_test_results exampleABState = Except.ok r ∧
        r.perf_a = groupPerfQ exampleABState exampleABState.ab_group_a ∧
        r.perf_b = groupPerfQ exampleABState exampleABState.ab_group_b ∧
        (r.winner ≠ "insufficient_data" ↔
          (10 < r.perf_a.1 ∧ 10 < r.perf_b.1)) ∧
        (10 < r.perf_a.1 ∧ 10 < r.perf_b.1 →
          r.winner = (if r.perf_b.2 < r.perf_a.2 then "A"
            else if r.perf_a.2 < r.perf_b.2 then "B" else "tie"))) :=
  ⟨rfl, ab_test_winner_rule exampleABState rfl⟩

/-- C8: calling create_model_version a second time with the same name
fails and changes nothing — the state after the second call is exactly
the state after the first, and the returned flag is false. -/
theorem create_version_second_call_fails (st : AnalyzerState) (name : String) :
    create_model_version (create_model_version st name).2 name =
      (false, (create_model_version st name).2) := by
  cases h : lookupQ st.model_versions name with
  | some v =>
      unfold create_model_version
      rw [h]
      simp only
      rw [h]
  | none =>
      unfold create_model_version
      rw [h]
      simp only
      rw [lookupQ_append_none _ _ _ h]

lemma simple_gradient_update_preserves (m : Model) (s : String)
    (target_idx : Nat) (probs : VecQ) :
    (simple_gradient_update m s target_idx probs).config = m.config ∧
    (simple_gradient_update m s target_idx probs).training_samples =
      m.training_samples ∧
    (simple_gradient_update m s target_idx probs).is_trained = m.is_trained ∧
    (simple_gradient_update m s target_idx probs).learning_rate =
      m.learning_rate := by
  unfold simple_gradient_update
  by_cases h1 : tokenize_secret m.config s = []
  · simp [h1]
  · by_cases h2 : argmaxQ probs = target_idx
    · simp [h1, h2]
    · simp [h1, h2]

lemma train_step_ok_of_tokens (expQ sqrtQ logQ : ℚ → ℚ) (m : Model)
    (s : String) (f : VecQ) (lbl : String)
    (htok : tokenize_secret m.config s ≠ []) :
    ∃ loss m1, train_step expQ sqrtQ logQ m s f lbl = (m1, Except.ok loss) ∧
      m1.config = m.config ∧ m1.training_samples = m.training_samples ∧
      m1.is_trained = m.is_trained := by
  have hfwd := forward_of_tokens_ne_nil expQ sqrtQ m s f htok
  obtain ⟨hc, ht, hi, -⟩ := simple_gradient_update_preserves m s
    (labelIndexQ lbl) (probsQ expQ sqrtQ m s f)
  refine ⟨-(logQ ((probsQ expQ sqrtQ m s f).getD (labelIndexQ lbl) 0
      + 1 / 100000000)),
    simple_gradient_update m s (labelIndexQ lbl) (probsQ expQ sqrtQ m s f),
    ?_, hc, ht, hi⟩
  unfold train_step
  rw [hfwd]

lemma run_epoch_samples_ok (expQ sqrtQ logQ : ℚ → ℚ) (c : ModelConfig)
    (ts : List SampleQ) (samples : List SampleQ)
    (hall : ∀ s ∈ samples, s.features.length = 19 →
      tokenize_secret c s.secret_value ≠ []) :
    ∀ (m : Model) (acc : ℚ), m.config = c → m.training_samples = ts →
      ∃ m1 l1, run_epoch_samples expQ sqrtQ logQ samples m acc =
        Sum.inl (m1, l1) ∧ m1.config = c ∧ m1.training_samples = ts := by
  induction samples with
  | nil =>
      intro m acc hbc hbt
      exact ⟨m, acc, rfl, hbc, hbt⟩
  | cons s rest ih =>
      intro m acc hbc hbt
      have ihrest := ih (fun x hx => hall x (List.mem_cons_of_mem s hx))
      unfold run_epoch_samples
      by_cases hlen : s.features.length ≠ 19
      · rw [if_pos hlen]
        exact ihrest m acc hbc hbt
      · rw [if_neg hlen]
        have htok : tokenize_secret m.config s.secret_value ≠ [] := by
          rw [hbc]
          exact hall s (List.mem_cons_self s rest) (by omega)
        obtain ⟨loss, m1, hstep, hc1, ht1, -⟩ :=
          train_step_ok_of_tokens expQ sqrtQ logQ m s.secret_value
            s.features s.label htok
        rw [hstep]
        exact ihrest m1 (acc + loss) (hc1.trans hbc) (ht1.trans hbt)

lemma run_epochs_ok (expQ sqrtQ logQ : ℚ → ℚ) (c : ModelConfig)
    (ts : List SampleQ) (samples : List SampleQ) (num_samples : Nat)
    (hall : ∀ s ∈ samples, s.features.length = 19 →
      tokenize_secret c s.secret_value ≠ []) :
    ∀ (n : Nat) (m : Model) (total : ℚ), m.config = c →
      m.training_samples = ts →
      ∃ m1 t1, run_epochs expQ sqrtQ logQ samples num_samples n m total =
        Sum.inl (m1, t1) ∧ m1.config = c ∧ m1.training_samples = ts := by
  intro n
  induction n with
  | zero =>
      intro m total hbc hbt
      exact ⟨m, total, rfl, hbc, hbt⟩
  | succ k ih =>
      intro m total hbc hbt
      obtain ⟨m1, l1, hrun, hc1, ht1⟩ := run_epoch_samples_ok expQ sqrtQ logQ
        c ts samples hall m 0 hbc hbt
      unfold run_epochs
      rw [hrun]
      exact ih m1 (total + l1 / (max 1 num_samples : ℚ)) hc1 ht1

/-- C5 (amended): train on the empty sample list returns the structured
error and leaves the model untouched; train on a non-empty list, for at
least one epoch, in which every sample whose feature vector has length
19 has a non-empty token sequence, sets is_trained, returns the
statistics record (epochs trained, an average loss, the full sample
count, model_updated = true), and leaves the training-sample buffer and
configuration unchanged — samples whose feature vector length is not 19
are silently skipped and neither fail nor block this. -/
theorem train_batch_rule (expQ sqrtQ logQ : ℚ → ℚ) (m : Model)
    (samples : List SampleQ) (epochs : Nat) :
    (samples = [] →
      train expQ sqrtQ logQ m samples epochs =
        (m, TrainResult.errorResult "No training samples provided")) ∧
    (samples ≠ [] → 1 ≤ epochs →
      (∀ s ∈ samples, s.features.length = 19 →
        tokenize_secret m.config s.secret_value ≠ []) →
      ∃ avg m1, train expQ sqrtQ logQ m samples epochs =
        (m1, TrainResult.stats epochs avg samples.length true) ∧
        m1.is_trained = true ∧
        m1.training_samples = m.training_samples ∧
        m1.config = m.config) := by
  constructor
  · intro h
    unfold train
    rw [if_pos h]
  · intro hne hep hall
    obtain ⟨m1, t1, hrun, hc1, ht1⟩ := run_epochs_ok expQ sqrtQ logQ m.config
      m.training_samples samples samples.length hall epochs m 0 rfl rfl
    refine ⟨t1 / (epochs : ℚ), { m1 with is_trained := true }, ?_, rfl, ht1,
      hc1⟩
    unfold train
    rw [if_neg hne, hrun]
    simp only
    rw [if_neg (by omega)]

/-- Witness for the amended C5 at a concrete model and a concrete
one-sample batch. -/
theorem train_batch_rule_witness :
    ([exampleGoodSample] ≠ ([] : List SampleQ)) ∧ (1 ≤ 1) ∧
      (∀ s ∈ [exampleGoodSample], s.features.length = 19 →
        tokenize_secret exampleModel.config s.secret_value ≠ []) ∧
      (∃ avg m1, train oneFun oneFun oneFun exampleModel [exampleGoodSample] 1
          = (m1, TrainResult.stats 1 avg [exampleGoodSample].length true) ∧
        m1.is_trained = true ∧
        m1.training_samples = exampleModel.training_samples ∧
        m1.config = exampleModel.config) := by
  refine ⟨by decide, le_refl 1, by decide, ?_⟩
  exact (train_batch_rule oneFun oneFun oneFun exampleModel
    [exampleGoodSample] 1).2 (by decide) (le_refl 1) (by decide)

/-- Counterexample to C5 as stated: a non-empty sample list containing a
sample with an empty secret and a full 19-entry feature vector makes
train escape with a KeyError instead of returning the statistics record,
and is_trained stays false. -/
theorem train_nonempty_exception_cx :
    train oneFun oneFun oneFun exampleModel [exampleBadSample] 1 =
      (exampleModel, TrainResult.exn PyError.keyError) ∧
    exampleModel.is_trained = false := by
  constructor
  · rfl
  · rfl
